import Mathlib

/-!
Shallow embedding of `src/crop_cells.py` (corner scanner and crop resolver).

A pixel is a list of channel intensities (BGR, each 0..255, modelled as `Nat`).
An image is a height, a width, and a row-major pixel function; the source reads
pixels through numpy indexing `image[r, c]`, whose semantics (a negative index
`i` means `dim + i`; an index outside `[-dim, dim)` raises `IndexError`) is
modelled by `getPix` returning `Option Pixel`, with `Option.none` standing for
the raised `IndexError`.
-/

abbrev Pixel := List Nat

structure Image where
  height : Nat
  width : Nat
  pix : Nat → Nat → Pixel

/-- Numpy 2-D integer indexing `image[r, c]`: a negative index wraps once by
the dimension; an index still out of `[0, dim)` raises (here: `Option.none`). -/
def getPix (img : Image) (r c : Int) : Option Pixel :=
  let r2 : Int := if r < 0 then r + (img.height : Int) else r
  let c2 : Int := if c < 0 then c + (img.width : Int) else c
  if 0 ≤ r2 ∧ r2 < (img.height : Int) ∧ 0 ≤ c2 ∧ c2 < (img.width : Int) then
    some (img.pix r2.toNat c2.toNat)
  else
    Option.none

/-- `is_black_pixel` (crop_cells.py line 22): `np.all(pixel <= tolerance)`. -/
def is_black_pixel (pixel : Pixel) (tolerance : Int) : Bool :=
  pixel.all (fun ch => (ch : Int) ≤ tolerance)

/-- The `axis` value of a corner report: `''` (the shared accumulator's initial
value), `'horizontal'` or `'vertical'`. -/
inductive Axis where
  | empty
  | horizontal
  | vertical
deriving DecidableEq, Repr

abbrev CornerReport := Nat × Axis

/-- One corner loop of `find_non_black_pixels` (e.g. lines 29-37): iterate
`x` over `range(width)`; at each `x` do the horizontal check at pixel
coordinates `hPos x`, then the vertical check at `vPos x`; break with
`(x, horizontal)` or `(x, vertical)` on the first non-black pixel. Falling off
the loop leaves the incoming accumulator `st` (the shared `(index, axis)`
state, mutated across corners in the source) unchanged. `fuel` is the number
of remaining iterations, initially `width`; `Except.error ()` models a raised
`IndexError`. -/
def scanLoop (img : Image) (tolerance : Int) (hPos vPos : Nat → Int × Int) :
    Nat → Nat → CornerReport → Except Unit CornerReport
  | _, 0, st => Except.ok st
  | x, fuel + 1, st =>
    match getPix img (hPos x).1 (hPos x).2 with
    | Option.none => Except.error ()
    | some p =>
      if ¬ is_black_pixel p tolerance then Except.ok (x, Axis.horizontal)
      else
        match getPix img (vPos x).1 (vPos x).2 with
        | Option.none => Except.error ()
        | some q =>
          if ¬ is_black_pixel q tolerance then Except.ok (x, Axis.vertical)
          else scanLoop img tolerance hPos vPos (x + 1) fuel st

deriving instance DecidableEq for Except

/-- The dict built by `find_non_black_pixels`. -/
structure CornerResults where
  top_left : CornerReport
  top_right : CornerReport
  bottom_left : CornerReport
  bottom_right : CornerReport
deriving DecidableEq, Repr

/-- `find_non_black_pixels` (crop_cells.py lines 6-76): the four corner loops
in source order, threading the shared mutable `(index, axis)` accumulator
(initially `(0, '')`) from each loop into the next; each corner's dict entry
is the accumulator's value right after that corner's loop. -/
def find_non_black_pixels (img : Image) (tolerance : Int) : Except Unit CornerResults := do
  let height := img.height
  let width := img.width
  let st0 : CornerReport := (0, Axis.empty)
  let tl ← scanLoop img tolerance
    (fun x => (0, (x : Int))) (fun x => ((x : Int), 0)) 0 width st0
  let tr ← scanLoop img tolerance
    (fun x => (0, (width : Int) - x - 1)) (fun x => ((x : Int), (width : Int) - 1)) 0 width tl
  let bl ← scanLoop img tolerance
    (fun x => ((height : Int) - 1, (x : Int))) (fun x => ((height : Int) - x - 1, 0)) 0 width tr
  let br ← scanLoop img tolerance
    (fun x => ((height : Int) - 1, (width : Int) - x - 1))
    (fun x => ((height : Int) - x - 1, (width : Int) - 1)) 0 width bl
  return ⟨tl, tr, bl, br⟩

/-- The crop rectangle printed and used by `crop_and_save`. -/
structure CropBox where
  left : Int
  right : Int
  top : Int
  bottom : Int
deriving DecidableEq, Repr

/-- The boundary derivation of `crop_and_save` (crop_cells.py lines 90-117),
as an explicit function of the reports, the image dimensions and the margin
(`crop_tolerance`). -/
def resolveBox (non_black : CornerResults) (width height : Nat)
    (crop_tolerance : Int) : CropBox :=
  let left : Int := 0
  let right : Int := (width : Int)
  let top : Int := 0
  let bottom : Int := (height : Int)
  let left := if non_black.top_left.2 = Axis.horizontal then
    (non_black.top_left.1 : Int) + crop_tolerance else left
  let left := if non_black.bottom_left.2 = Axis.horizontal then
    max left ((non_black.bottom_left.1 : Int) + crop_tolerance) else left
  let right := if non_black.top_right.2 = Axis.horizontal then
    (width : Int) - (non_black.top_right.1 : Int) - crop_tolerance else right
  let right := if non_black.bottom_right.2 = Axis.horizontal then
    min right ((width : Int) - (non_black.bottom_right.1 : Int) - crop_tolerance) else right
  let top := if non_black.top_left.2 = Axis.vertical then
    (non_black.top_left.1 : Int) + crop_tolerance else top
  let top := if non_black.top_right.2 = Axis.vertical then
    max top ((non_black.top_right.1 : Int) + crop_tolerance) else top
  let bottom := if non_black.bottom_left.2 = Axis.vertical then
    (height : Int) - (non_black.bottom_left.1 : Int) - crop_tolerance else bottom
  let bottom := if non_black.bottom_right.2 = Axis.vertical then
    min bottom ((height : Int) - (non_black.bottom_right.1 : Int) - crop_tolerance) else bottom
  ⟨left, right, top, bottom⟩

/-- A Python slice bound for a dimension of size `n`: a negative bound wraps
by `n` and both are clamped into `[0, n]` (slicing never raises). -/
def sliceBound (n : Nat) (i : Int) : Nat :=
  if i < 0 then (max 0 (i + (n : Int))).toNat else min i.toNat n

/-- The numpy slice `image[top:bottom, left:right]` (crop_cells.py line 122). -/
def cropImage (img : Image) (box : CropBox) : Image :=
  let t := sliceBound img.height box.top
  let b := sliceBound img.height box.bottom
  let l := sliceBound img.width box.left
  let r := sliceBound img.width box.right
  ⟨b - t, r - l, fun row col => img.pix (t + row) (l + col)⟩

/-- Index of the last occurrence of `c`, Python `str.rfind` style
(`-1` when absent). -/
def rfindChar (c : Char) : List Char → Int
  | [] => -1
  | x :: xs =>
    let r := rfindChar c xs
    if 0 ≤ r then r + 1 else if x = c then 0 else -1

/-- `os.path.splitext` for POSIX paths: split at the last `'.'` that lies
after the last `'/'` and is preceded, within the basename, by some non-dot
character (so leading dots of the basename never start an extension). -/
def splitext (p : String) : String × String :=
  let cs := p.toList
  let sepIndex := rfindChar '/' cs
  let dotIndex := rfindChar '.' cs
  if sepIndex < dotIndex then
    if (List.range cs.length).any (fun j =>
        decide (sepIndex + 1 ≤ (j : Int) ∧ (j : Int) < dotIndex) &&
        (cs.getD j '.' != '.')) then
      (String.mk (cs.take dotIndex.toNat), String.mk (cs.drop dotIndex.toNat))
    else (p, "")
  else (p, "")

/-- Output file naming of `crop_and_save` (crop_cells.py lines 125-126):
`f"{base}_cropped{ext}"`. -/
def cropped_filename (image_filename : String) : String :=
  let base := (splitext image_filename).1
  let ext := (splitext image_filename).2
  base ++ "_cropped" ++ ext

/-- `crop_and_save` (crop_cells.py lines 78-128): computes the crop box from
the corner reports, slices the image with it (no clamping, no validation) and
pairs the result with the derived output filename. The function is total:
no step of it can raise. -/
def crop_and_save (img : Image) (non_black : CornerResults)
    (image_filename : String) (crop_tolerance : Int) :
    CropBox × Image × String :=
  let box := resolveBox non_black img.width img.height crop_tolerance
  (box, cropImage img box, cropped_filename image_filename)

/-! ### Helper predicates for stating scan properties -/

/-- The pixel access at `pos` succeeds and the pixel is background. -/
def blackAt (img : Image) (tolerance : Int) (pos : Int × Int) : Bool :=
  match getPix img pos.1 pos.2 with
  | some p => is_black_pixel p tolerance
  | Option.none => false

/-- The pixel access at `pos` succeeds and the pixel is non-background. -/
def nonBlackAt (img : Image) (tolerance : Int) (pos : Int × Int) : Bool :=
  match getPix img pos.1 pos.2 with
  | some p => ! is_black_pixel p tolerance
  | Option.none => false

/-! ### Concrete inputs -/

/-- A 3-wide, 2-high image, every pixel fully black. -/
def imgWide3x2 : Image := ⟨2, 3, fun _ _ => [0, 0, 0]⟩

/-- A 4-wide, 2-high image, every pixel fully black. -/
def imgWide4x2 : Image := ⟨2, 4, fun _ _ => [0, 0, 0]⟩

/-- The 10×10 image of the spec scenario: a solid red 6×6 square (channels
`[40, 40, 200]`, each > 30) on rows 2..7 and columns 2..7, surrounded by a
2-pixel all-black border. -/
def imgSquare10 : Image :=
  ⟨10, 10, fun r c =>
    if 2 ≤ r ∧ r ≤ 7 ∧ 2 ≤ c ∧ c ≤ 7 then [40, 40, 200] else [0, 0, 0]⟩

/-- A 3×3 image whose only non-background pixel is at row 0, column 1. -/
def imgDot3 : Image :=
  ⟨3, 3, fun r c => if r = 0 ∧ c = 1 then [40, 40, 200] else [0, 0, 0]⟩

/-- A zero-width image of height 5. -/
def imgZeroWidth : Image := ⟨5, 0, fun _ _ => []⟩

/-- A 2-wide, 3-high image, every pixel fully black. -/
def imgAllBlack2x3 : Image := ⟨3, 2, fun _ _ => [0, 0, 0]⟩

/-- A 4×4 image, every pixel fully black. -/
def imgBlack4 : Image := ⟨4, 4, fun _ _ => [0, 0, 0]⟩

/-- Corner reports whose only evidence is a top-right horizontal hit at
offset 5 — with width 4 and margin 5 this drives `right` to `4 - 5 - 5 = -6`. -/
def nbOverflow : CornerResults :=
  ⟨(0, Axis.empty), (5, Axis.horizontal), (0, Axis.empty), (0, Axis.empty)⟩

/-- The four fallback reports `(0, '')`. -/
def allEmptyReports : CornerResults :=
  ⟨(0, Axis.empty), (0, Axis.empty), (0, Axis.empty), (0, Axis.empty)⟩

/-- Spec-side boundary derivation, written from the spec's words alone
(§4.2): each boundary starts at the image edge and is pushed inward, never
outward, by the largest-inset evidence of the two corners that bound it; a
side with no evidence of the relevant axis stays at the full image edge. -/
def resolveBox_spec (nb : CornerResults) (width height : Nat)
    (margin : Int) : CropBox :=
  let left := max 0 (max
    (if nb.top_left.2 = Axis.horizontal then (nb.top_left.1 : Int) + margin else 0)
    (if nb.bottom_left.2 = Axis.horizontal then (nb.bottom_left.1 : Int) + margin else 0))
  let right := min (width : Int) (min
    (if nb.top_right.2 = Axis.horizontal then
      (width : Int) - (nb.top_right.1 : Int) - margin else (width : Int))
    (if nb.bottom_right.2 = Axis.horizontal then
      (width : Int) - (nb.bottom_right.1 : Int) - margin else (width : Int)))
  let top := max 0 (max
    (if nb.top_left.2 = Axis.vertical then (nb.top_left.1 : Int) + margin else 0)
    (if nb.top_right.2 = Axis.vertical then (nb.top_right.1 : Int) + margin else 0))
  let bottom := min (height : Int) (min
    (if nb.bottom_left.2 = Axis.vertical then
      (height : Int) - (nb.bottom_left.1 : Int) - margin else (height : Int))
    (if nb.bottom_right.2 = Axis.vertical then
      (height : Int) - (nb.bottom_right.1 : Int) - margin else (height : Int)))
  ⟨left, right, top, bottom⟩

/-- Reports with mixed evidence, used to instantiate the resolver theorems. -/
def nbMixed : CornerResults :=
  ⟨(1, Axis.horizontal), (2, Axis.vertical), (3, Axis.horizontal), (1, Axis.empty)⟩

/-- A 3×3 image whose non-background pixels are exactly the two at row 0,
column 1 and at row 1, column 0. -/
def imgCross3 : Image :=
  ⟨3, 3, fun r c =>
    if (r = 0 ∧ c = 1) ∨ (r = 1 ∧ c = 0) then [40, 40, 200] else [0, 0, 0]⟩

/-! ### General lemmas about the scan loop -/

theorem getPix_of_lt (img : Image) (r c : Int) (hr : 0 ≤ r)
    (hr2 : r < (img.height : Int)) (hc : 0 ≤ c) (hc2 : c < (img.width : Int)) :
    getPix img r c = some (img.pix r.toNat c.toNat) := by
  simp only [getPix, if_neg (not_lt.mpr hr), if_neg (not_lt.mpr hc)]
  rw [if_pos ⟨hr, hr2, hc, hc2⟩]

theorem scanLoop_step_black (img : Image) (tolerance : Int)
    (hPos vPos : Nat → Int × Int) (x fuel : Nat) (st : CornerReport)
    (hh : blackAt img tolerance (hPos x) = true)
    (hv : blackAt img tolerance (vPos x) = true) :
    scanLoop img tolerance hPos vPos x (fuel + 1) st =
      scanLoop img tolerance hPos vPos (x + 1) fuel st := by
  unfold blackAt at hh hv
  cases hg : getPix img (hPos x).1 (hPos x).2 with
  | none => rw [hg] at hh; simp at hh
  | some p =>
    rw [hg] at hh; simp only [] at hh
    simp only [scanLoop, hg]
    rw [if_neg (by simp [hh])]
    cases hg2 : getPix img (vPos x).1 (vPos x).2 with
    | none => rw [hg2] at hv; simp at hv
    | some q =>
      rw [hg2] at hv; simp only [] at hv
      simp only [hg2]
      rw [if_neg (by simp [hv])]

theorem scanLoop_skip (img : Image) (tolerance : Int)
    (hPos vPos : Nat → Int × Int) (n : Nat) :
    ∀ (x fuel : Nat) (st : CornerReport),
      (∀ k, x ≤ k → k < x + n →
        blackAt img tolerance (hPos k) = true ∧ blackAt img tolerance (vPos k) = true) →
      scanLoop img tolerance hPos vPos x (n + fuel) st =
        scanLoop img tolerance hPos vPos (x + n) fuel st := by
  induction n with
  | zero => intro x fuel st _; rw [Nat.zero_add, Nat.add_zero]
  | succ m ih =>
    intro x fuel st hblack
    have hx := hblack x (le_refl x) (by omega)
    have h1 : m + 1 + fuel = (m + fuel) + 1 := by omega
    rw [h1, scanLoop_step_black img tolerance hPos vPos x (m + fuel) st hx.1 hx.2]
    have h2 : x + (m + 1) = (x + 1) + m := by omega
    rw [h2]
    exact ih (x + 1) fuel st (fun k hk1 hk2 => hblack k (by omega) (by omega))

theorem scanLoop_all_black (img : Image) (tolerance : Int)
    (hPos vPos : Nat → Int × Int)
    (hblack : ∀ k, k < img.width →
      blackAt img tolerance (hPos k) = true ∧ blackAt img tolerance (vPos k) = true)
    (st : CornerReport) :
    scanLoop img tolerance hPos vPos 0 img.width st = Except.ok st := by
  have h := scanLoop_skip img tolerance hPos vPos img.width 0 0 st
    (fun k hk1 hk2 => hblack k (by omega))
  simpa using h

/-! ### Claim theorems -/

/-- Claim C1: the per-corner scan is claimed to iterate `i` only up to
`min(H, W) - 1` with every pixel access in bounds. The code instead iterates
`x` over `range(width)`: on the all-black 3-wide, 2-high image the top-left
loop reaches `x = 2` and its vertical check reads `image[2, 0]`, out of range
for height 2, raising `IndexError` (modelled as `Except.error`). -/
theorem corner_scan_wide_image_index_error :
    find_non_black_pixels imgWide3x2 30 = Except.error () := by decide

/-- Claim C2 (counterexample): on the 10×10 image with a 2-pixel black border
around a red 6×6 square, tolerance 30, margin 0, the scan examines only the
edge rows and columns — which are entirely black — so every corner reports
`(0, '')`, not `(2, horizontal)`, and the resolved box is the full image,
not `(2, 8, 2, 8)`. -/
theorem square10_counterexample :
    find_non_black_pixels imgSquare10 30 = Except.ok allEmptyReports ∧
    allEmptyReports.top_left ≠ ((2 : Nat), Axis.horizontal) ∧
    resolveBox allEmptyReports 10 10 0 ≠ ⟨2, 8, 2, 8⟩ := by
  refine ⟨by decide, by decide, by decide⟩

/-- Claim C2 (amended): on that same 10×10 image with tolerance 30, all four
corners report the fallback `(0, '')` and the resolver returns the full-image
box `left=0, right=10, top=0, bottom=10`. -/
theorem square10_reports_empty_full_box :
    find_non_black_pixels imgSquare10 30 = Except.ok allEmptyReports ∧
    resolveBox allEmptyReports 10 10 0 = ⟨0, 10, 0, 10⟩ := by
  refine ⟨by decide, by decide⟩

/-- Claim C3: a corner whose scan finds nothing is claimed to report
`(0, '')` regardless of the other corners. On the 3×3 image whose only
non-background pixel is at row 0, column 1, the bottom-left and bottom-right
scans find nothing, yet both report `(1, horizontal)` — the stale value left
in the shared `(index, axis)` accumulator by the earlier corners. -/
theorem stale_report_for_hitless_corner :
    find_non_black_pixels imgDot3 30 =
      Except.ok ⟨(1, Axis.horizontal), (1, Axis.horizontal),
        (1, Axis.horizontal), (1, Axis.horizontal)⟩ ∧
    ((1 : Nat), Axis.horizontal) ≠ ((0 : Nat), Axis.empty) := by
  refine ⟨by decide, by decide⟩

/-- Claim C7: a zero-width image is claimed to fail with `InvalidImage`. The
code has no such check: with width 0 every corner loop runs zero iterations
and the function silently returns the four default reports `(0, '')`. -/
theorem zero_width_returns_default_reports :
    find_non_black_pixels imgZeroWidth 30 = Except.ok allEmptyReports := by decide

/-- Claim C9: the output name splits the input at its last extension
separator and inserts `_cropped` before the extension: `"scan.png"` maps to
`"scan_cropped.png"` and extensionless `"scan"` maps to `"scan_cropped"`. -/
theorem cropped_filename_round_trip :
    cropped_filename "scan.png" = "scan_cropped.png" ∧
    cropped_filename "scan" = "scan_cropped" := by
  refine ⟨by decide, by decide⟩

/-- Claim C10: the resolver performs no clamping or validation. With only a
top-right horizontal report of offset 5 on a 4×4 image and margin 5, the
resolved box has `right = 4 - 5 - 5 = -6 < 0 ≤ left`, and `crop_and_save`
still slices (yielding a 4-row, 0-column image) and still produces the output
filename — no error is raised anywhere. -/
theorem resolver_no_clamp_saves_invalid_box :
    (crop_and_save imgBlack4 nbOverflow "x.png" 5).1 = ⟨0, -6, 0, 4⟩ ∧
    (crop_and_save imgBlack4 nbOverflow "x.png" 5).1.right < 0 ∧
    (crop_and_save imgBlack4 nbOverflow "x.png" 5).1.right ≤
      (crop_and_save imgBlack4 nbOverflow "x.png" 5).1.left ∧
    (crop_and_save imgBlack4 nbOverflow "x.png" 5).2.1.height = 4 ∧
    (crop_and_save imgBlack4 nbOverflow "x.png" 5).2.1.width = 0 ∧
    (crop_and_save imgBlack4 nbOverflow "x.png" 5).2.2 = "x_cropped.png" := by
  refine ⟨by decide, by decide, by decide, by decide, by decide, by decide⟩

set_option maxHeartbeats 4000000 in
/-- Claim C4: with a nonnegative margin, the boundary derivation of
`crop_and_save` coincides with the spec's max-inward-on-each-side
reconciliation: each boundary equals the image edge pushed inward by the
largest inset among the relevant evidence, every boundary stays inside the
image edges, and a side with no evidence of the relevant axis stays at the
full image edge. -/
theorem resolveBox_matches_spec (nb : CornerResults) (width height : Nat)
    (margin : Int) (hm : 0 ≤ margin) :
    resolveBox nb width height margin = resolveBox_spec nb width height margin ∧
    0 ≤ (resolveBox nb width height margin).left ∧
    (resolveBox nb width height margin).right ≤ (width : Int) ∧
    0 ≤ (resolveBox nb width height margin).top ∧
    (resolveBox nb width height margin).bottom ≤ (height : Int) ∧
    (nb.top_left.2 ≠ Axis.horizontal → nb.bottom_left.2 ≠ Axis.horizontal →
      (resolveBox nb width height margin).left = 0) ∧
    (nb.top_right.2 ≠ Axis.horizontal → nb.bottom_right.2 ≠ Axis.horizontal →
      (resolveBox nb width height margin).right = (width : Int)) ∧
    (nb.top_left.2 ≠ Axis.vertical → nb.top_right.2 ≠ Axis.vertical →
      (resolveBox nb width height margin).top = 0) ∧
    (nb.bottom_left.2 ≠ Axis.vertical → nb.bottom_right.2 ≠ Axis.vertical →
      (resolveBox nb width height margin).bottom = (height : Int)) := by
  obtain ⟨⟨i1, a1⟩, ⟨i2, a2⟩, ⟨i3, a3⟩, ⟨i4, a4⟩⟩ := nb
  cases a1 <;> cases a2 <;> cases a3 <;> cases a4 <;>
    simp [resolveBox, resolveBox_spec, CropBox.mk.injEq] <;> omega

/-- Claim C4 witness: concrete instantiation at `nbMixed`, a 10×8 image and
margin 2. -/
theorem resolveBox_matches_spec_witness :
    (0 : Int) ≤ 2 ∧
    resolveBox nbMixed 10 8 2 = resolveBox_spec nbMixed 10 8 2 :=
  ⟨by decide, (resolveBox_matches_spec nbMixed 10 8 2 (by decide)).1⟩

set_option maxHeartbeats 4000000 in
/-- Claim C8: for fixed reports and dimensions, growing the margin moves
`left` and `top` only up and `right` and `bottom` only down — the crop
region shrinks or stays equal as the margin grows. -/
theorem resolveBox_margin_monotone (nb : CornerResults) (width height : Nat)
    (m1 m2 : Int) (h : m1 ≤ m2) :
    (resolveBox nb width height m1).left ≤ (resolveBox nb width height m2).left ∧
    (resolveBox nb width height m1).top ≤ (resolveBox nb width height m2).top ∧
    (resolveBox nb width height m2).right ≤ (resolveBox nb width height m1).right ∧
    (resolveBox nb width height m2).bottom ≤ (resolveBox nb width height m1).bottom := by
  obtain ⟨⟨i1, a1⟩, ⟨i2, a2⟩, ⟨i3, a3⟩, ⟨i4, a4⟩⟩ := nb
  cases a1 <;> cases a2 <;> cases a3 <;> cases a4 <;>
    simp [resolveBox] <;> omega

/-- Claim C8 witness: concrete instantiation at `nbMixed`, a 10×8 image and
margins 1 ≤ 3. -/
theorem resolveBox_margin_monotone_witness :
    (1 : Int) ≤ 3 ∧
    (resolveBox nbMixed 10 8 1).left ≤ (resolveBox nbMixed 10 8 3).left :=
  ⟨by decide, (resolveBox_margin_monotone nbMixed 10 8 1 3 (by decide)).1⟩

/-- Claim C5 (counterexample): on the all-black 4-wide, 2-high image the
scanner does not return four `(0, '')` reports at all — the top-left loop's
vertical check walks past the last row and raises `IndexError`. -/
theorem all_black_wide_image_scan_errors :
    find_non_black_pixels imgWide4x2 30 = Except.error () := by decide

/-- Claim C5 (amended): for every image whose width is at most its height
and whose every in-bounds pixel is background, all four corner reports are
the fallback `(0, '')` and the resolver returns the full-image box
`(0, W, 0, H)` for any margin. -/
theorem all_black_narrow_image_defaults (img : Image) (tolerance margin : Int)
    (hWH : img.width ≤ img.height)
    (hblack : ∀ r c, r < img.height → c < img.width →
      is_black_pixel (img.pix r c) tolerance = true) :
    find_non_black_pixels img tolerance = Except.ok allEmptyReports ∧
    resolveBox allEmptyReports img.width img.height margin =
      ⟨0, (img.width : Int), 0, (img.height : Int)⟩ := by
  have hb : ∀ (r c : Int), 0 ≤ r → r < (img.height : Int) →
      0 ≤ c → c < (img.width : Int) → blackAt img tolerance (r, c) = true := by
    intro r c h1 h2 h3 h4
    unfold blackAt
    rw [getPix_of_lt img r c h1 h2 h3 h4]
    exact hblack r.toNat c.toNat (by omega) (by omega)
  have hTL : ∀ k, k < img.width →
      blackAt img tolerance ((0 : Int), (k : Int)) = true ∧
      blackAt img tolerance ((k : Int), (0 : Int)) = true := by
    intro k hk
    exact ⟨hb 0 k (by omega) (by omega) (by omega) (by omega),
      hb k 0 (by omega) (by omega) (by omega) (by omega)⟩
  have hTR : ∀ k, k < img.width →
      blackAt img tolerance ((0 : Int), (img.width : Int) - k - 1) = true ∧
      blackAt img tolerance ((k : Int), (img.width : Int) - 1) = true := by
    intro k hk
    exact ⟨hb 0 _ (by omega) (by omega) (by omega) (by omega),
      hb k _ (by omega) (by omega) (by omega) (by omega)⟩
  have hBL : ∀ k, k < img.width →
      blackAt img tolerance ((img.height : Int) - 1, (k : Int)) = true ∧
      blackAt img tolerance ((img.height : Int) - k - 1, (0 : Int)) = true := by
    intro k hk
    exact ⟨hb _ k (by omega) (by omega) (by omega) (by omega),
      hb _ 0 (by omega) (by omega) (by omega) (by omega)⟩
  have hBR : ∀ k, k < img.width →
      blackAt img tolerance ((img.height : Int) - 1, (img.width : Int) - k - 1) = true ∧
      blackAt img tolerance ((img.height : Int) - k - 1, (img.width : Int) - 1) = true := by
    intro k hk
    exact ⟨hb _ _ (by omega) (by omega) (by omega) (by omega),
      hb _ _ (by omega) (by omega) (by omega) (by omega)⟩
  constructor
  · simp only [find_non_black_pixels,
      scanLoop_all_black img tolerance _ _ hTL,
      scanLoop_all_black img tolerance _ _ hTR,
      scanLoop_all_black img tolerance _ _ hBL,
      scanLoop_all_black img tolerance _ _ hBR]
    rfl
  · simp [resolveBox, allEmptyReports]

/-- Claim C5 witness: the amended theorem applied to the all-black 2-wide,
3-high image with tolerance 30 and margin 5. -/
theorem all_black_narrow_image_defaults_witness :
    imgAllBlack2x3.width ≤ imgAllBlack2x3.height ∧
    find_non_black_pixels imgAllBlack2x3 30 = Except.ok allEmptyReports :=
  ⟨by decide,
    (all_black_narrow_image_defaults imgAllBlack2x3 30 5 (by decide)
      (fun _ _ _ _ => rfl)).1⟩

/-- Claim C6: in any corner scan, if every index before `i` sees only
background pixels (so no earlier hit) and at index `i` both the
horizontal-check pixel and the vertical-check pixel are non-background, the
loop reports `(i, horizontal)`: the horizontal check is evaluated before the
vertical check at the same index. -/
theorem scan_horizontal_wins_tie (img : Image) (tolerance : Int)
    (hPos vPos : Nat → Int × Int) (st : CornerReport) (i : Nat)
    (hi : i < img.width)
    (hprev : ∀ k, k < i →
      blackAt img tolerance (hPos k) = true ∧ blackAt img tolerance (vPos k) = true)
    (hh : nonBlackAt img tolerance (hPos i) = true)
    (hv : nonBlackAt img tolerance (vPos i) = true) :
    scanLoop img tolerance hPos vPos 0 img.width st = Except.ok (i, Axis.horizontal) := by
  have h1 : img.width = i + ((img.width - i - 1) + 1) := by omega
  rw [h1, scanLoop_skip img tolerance hPos vPos i 0 ((img.width - i - 1) + 1) st
    (fun k hk1 hk2 => hprev k (by omega)), Nat.zero_add]
  unfold nonBlackAt at hh
  cases hg : getPix img (hPos i).1 (hPos i).2 with
  | none => rw [hg] at hh; simp at hh
  | some p =>
    rw [hg] at hh; simp only [] at hh
    have hh2 : is_black_pixel p tolerance = false := by
      cases hb : is_black_pixel p tolerance
      · rfl
      · rw [hb] at hh; simp at hh
    simp only [scanLoop, hg]
    rw [if_pos (by simp [hh2])]

/-- Claim C6 witness: the top-left scan of the 3×3 image with non-background
pixels at row 0, column 1 and row 1, column 0: at `i = 1` the horizontal and
vertical checks hit simultaneously and the report is `(1, horizontal)`. -/
theorem scan_horizontal_wins_tie_witness :
    1 < imgCross3.width ∧
    scanLoop imgCross3 30 (fun x => (0, (x : Int))) (fun x => ((x : Int), 0))
      0 imgCross3.width (0, Axis.empty) = Except.ok (1, Axis.horizontal) :=
  ⟨by decide,
    scan_horizontal_wins_tie imgCross3 30 (fun x => (0, (x : Int)))
      (fun x => ((x : Int), 0)) (0, Axis.empty) 1 (by decide)
      (fun k hk => by
        have hk0 : k = 0 := by omega
        subst hk0
        exact ⟨by decide, by decide⟩)
      (by decide) (by decide)⟩
